import Mathlib

/-!
Formal model of the HOS/ELD compliance engine of the trip-planner backend.

Times are modelled as natural numbers (minutes or seconds as noted), hour
counters and decimal fields as rationals, statuses and reason strings as the
string codes used by the source.
-/

namespace TripPlanner

/-! HOS rule set: `Driver.can_drive` (apps/core/models.py)

The source checks, in order: inactive, 70-hour cycle, 11-hour daily drive,
14-hour daily duty, each with `>=` against its limit. -/

def can_drive (cycle_hours daily_drive_hours daily_duty_hours : ℚ)
    (is_active : Bool) : Bool × String :=
  if is_active = false then (false, "Driver is inactive")
  else if 70 ≤ cycle_hours then (false, "70-hour cycle limit reached")
  else if 11 ≤ daily_drive_hours then (false, "11-hour daily drive limit reached")
  else if 14 ≤ daily_duty_hours then (false, "14-hour daily duty limit reached")
  else (true, "Can drive")

/-- The check order asserted by the spec's invariant (cycle → drive → duty →
inactive), written out for comparison with the source's order. -/
def can_drive_claim_order (cycle_hours daily_drive_hours daily_duty_hours : ℚ)
    (is_active : Bool) : Bool × String :=
  if 70 ≤ cycle_hours then (false, "70-hour cycle limit reached")
  else if 11 ≤ daily_drive_hours then (false, "11-hour daily drive limit reached")
  else if 14 ≤ daily_duty_hours then (false, "14-hour daily duty limit reached")
  else if is_active = false then (false, "Driver is inactive")
  else (true, "Can drive")

/-! `Vehicle.update_odometer` (apps/core/models.py)

`current_odometer` is a positive-integer field; engine hours are a decimal.
The method raises before any mutation when the reading decreases, otherwise
updates the odometer, estimates engine hours at 45 mph, and returns the miles
driven.  It is modelled as returning the raised error (if any) together with
the vehicle object after the call. -/

structure Vehicle where
  current_odometer : ℕ
  current_engine_hours : ℚ
deriving Repr, DecidableEq

def update_odometer (v : Vehicle) (new_reading : ℕ) :
    Except String ℕ × Vehicle :=
  if new_reading < v.current_odometer then
    (Except.error "Odometer reading cannot decrease", v)
  else
    let miles_driven := new_reading - v.current_odometer
    let v₁ : Vehicle :=
      { v with current_odometer := new_reading }
    let v₂ : Vehicle :=
      if 0 < miles_driven then
        { v₁ with current_engine_hours :=
            v₁.current_engine_hours + (miles_driven : ℚ) / 45 }
      else v₁
    (Except.ok miles_driven, v₂)

/-! 60-minute interval compliance check
(`ELDLocationManager.get_compliance_report`, apps/core/models.py)

For each driving entry the source computes `duration.total_seconds()` and only
when it is strictly greater than 3600 compares the recorded interval-sample
count against `int(duration.total_seconds() // 3600)`. -/

structure IntervalIssue where
  expected : ℕ
  actual : ℕ
deriving Repr, DecidableEq

def check_driving_interval (duration_seconds intervals_count : ℕ) :
    Option IntervalIssue :=
  if 3600 < duration_seconds then
    let expected_intervals := duration_seconds / 3600
    if intervals_count < expected_intervals then
      some ⟨expected_intervals, intervals_count⟩
    else none
  else none

/-- Minimum sample count that avoids a `missing_intervals` flag. -/
def required_samples (duration_seconds : ℕ) : ℕ :=
  if 3600 < duration_seconds then duration_seconds / 3600 else 0

/-! ELD-app data model (apps/eld/models.py)

`DutyStatusEntry` rows of the eld app carry a status code (`OFF`, `SB`, `D`,
`ON`), start/end times and a `duration_minutes` positive-integer field.
Timestamps are modelled as minutes since the epoch; a calendar date is the
timestamp divided by 1440. -/

structure DutyEntry where
  duty_status : String
  start_time : ℕ
  end_time : Option ℕ
  duration_minutes : ℕ
deriving Repr, DecidableEq

structure ELDViolation where
  violation_type : String
  severity : String
  duration_minutes : ℤ
deriving Repr, DecidableEq

/-- Python's `int()` conversion truncates toward zero. -/
def py_int (q : ℚ) : ℤ :=
  if 0 ≤ q then ⌊q⌋ else ⌈q⌉

/-- Round-to-nearest, ties-to-even, at 53 significant bits: the rounding
binary64 (Python `float`) arithmetic applies to every operation result.  Only
the normal range matters for the small hour/minute quantities of these
fields, so overflow and subnormals are not modelled. -/
def double_round (q : ℚ) : ℚ :=
  if q = 0 then 0
  else
    let e : ℤ := Int.log 2 |q|
    let scale : ℚ := 2 ^ ((52 : ℤ) - e)
    let x : ℚ := |q| * scale
    let fl : ℤ := ⌊x⌋
    let r : ℤ :=
      if x - fl < 1/2 then fl
      else if 1/2 < x - fl then fl + 1
      else if 2 ∣ fl then fl else fl + 1
    if q < 0 then -((r : ℚ) / scale) else (r : ℚ) / scale

/-- The violation duration as the source computes it:
`int((float(value) - limit) * 60)` in binary64 arithmetic.  `float(value)`
rounds the stored decimal to the nearest double; the subtraction (the limits
11, 14, 70 are exact doubles) and the multiplication by 60 are each correctly
rounded; `int()` truncates toward zero. -/
def float_duration_minutes (value limit : ℚ) : ℤ :=
  py_int (double_round (double_round (double_round value - limit) * 60))

/-- A daily ELD log row together with its owned duty entries, violations and
audit actions (`related_name` collections in the source). -/
structure EldDailyLog where
  trip : ℕ
  driver : ℕ
  vehicle : ℕ
  log_date : ℕ
  cycle_hours_used : ℚ
  total_drive_time : ℚ
  total_on_duty_time : ℚ
  total_off_duty_time : ℚ
  is_compliant : Bool
  duty_entries : List DutyEntry
  violations : List ELDViolation
  audit_actions : List String
deriving Repr, DecidableEq

/-! `ELDLogService._check_violations` (apps/eld/services.py)

Checks the 11-hour drive, 14-hour duty and 70-hour cycle limits with strict
`>` (exact decimal comparisons); each violation's `duration_minutes` is
`int((float(value) - limit) * 60)`, evaluated in binary64 floating point.
When any violation is found they are bulk-created and `is_compliant` is set
to `False`; otherwise the log is left untouched. -/

def check_violations (log : EldDailyLog) : List ELDViolation × EldDailyLog :=
  let violations : List ELDViolation :=
    (if 11 < log.total_drive_time then
      [⟨"DAILY_DRIVE_EXCEEDED", "HIGH",
        float_duration_minutes log.total_drive_time 11⟩]
     else []) ++
    (if 14 < log.total_on_duty_time then
      [⟨"DAILY_DUTY_EXCEEDED", "HIGH",
        float_duration_minutes log.total_on_duty_time 14⟩]
     else []) ++
    (if 70 < log.cycle_hours_used then
      [⟨"CYCLE_EXCEEDED", "CRITICAL",
        float_duration_minutes log.cycle_hours_used 70⟩]
     else [])
  if violations = [] then (violations, log)
  else (violations,
    { log with violations := log.violations ++ violations, is_compliant := false })

/-! `HOSComplianceChecker._check_rest_periods` (apps/eld/services.py)

The checker filters the log's entries to `OFF`/`SB`, takes the maximum of the
individual entries' `duration_minutes / 60` (it does not merge adjacent rest
entries), and appends an `INSUFFICIENT_REST`/`MEDIUM` violation when that
maximum is below `MIN_OFF_DUTY_HOURS = 10` and `total_drive_time > 0`. -/

def is_rest_status (e : DutyEntry) : Bool :=
  e.duty_status == "OFF" || e.duty_status == "SB"

def longest_rest (entries : List DutyEntry) : ℚ :=
  (entries.filter is_rest_status).foldl
    (fun longest e =>
      if longest < (e.duration_minutes : ℚ) / 60 then (e.duration_minutes : ℚ) / 60
      else longest) 0

def check_rest_periods (entries : List DutyEntry) (total_drive_time : ℚ) :
    List (String × String) :=
  if longest_rest entries < 10 ∧ 0 < total_drive_time then
    [("INSUFFICIENT_REST", "MEDIUM")]
  else []

/-- The quantity named by the spec's rest rule: the longest contiguous
stretch of `OFF`/`SB` time with adjacent rest entries taken together (an
entry continues the current stretch when its start equals the previous
entry's end), in hours. -/
def longest_merged_rest_aux : List DutyEntry → ℕ → ℕ → Option ℕ → ℕ
  | [], best, cur, _ => max best cur
  | e :: rest, best, cur, last_end =>
    if is_rest_status e then
      if last_end = some e.start_time then
        longest_merged_rest_aux rest best (cur + e.duration_minutes) e.end_time
      else
        longest_merged_rest_aux rest (max best cur) e.duration_minutes e.end_time
    else
      longest_merged_rest_aux rest (max best cur) 0 none

def longest_merged_rest (entries : List DutyEntry) : ℚ :=
  (longest_merged_rest_aux entries 0 0 none : ℚ) / 60

/-! `ELDPrintService._generate_graph_grid` /
`_get_duty_status_for_minute` (apps/eld/services.py)

The grid walks `range(1440)`; each minute's status comes from scanning the
log's duty entries ordered by `start_time` and returning the first whose
`start_time <= target` and whose `end_time` is null or `> target`, with
`OFF` as the fallback.

The source converts the minute to a timestamp with
`datetime.combine(log_date, datetime.time())`; `datetime.time` is the unbound
instance method of the `datetime` class, so calling it with no argument raises
`TypeError` at runtime.  The model reads that expression as the midnight
day-start `datetime.min.time()` that the same file uses everywhere else, so a
minute `m` of the day maps to the absolute timestamp
`log_date * 1440 + m` (minutes). -/

structure GridCell where
  minute : ℕ
  hour : ℕ
  minute_in_hour : ℕ
  duty_status : String
deriving Repr, DecidableEq

def get_duty_status_for_minute (duty_entries : List DutyEntry) (target_time : ℕ) :
    String :=
  match duty_entries with
  | [] => "OFF"
  | e :: rest =>
    if e.start_time ≤ target_time then
      match e.end_time with
      | none => e.duty_status
      | some et =>
        if target_time < et then e.duty_status
        else get_duty_status_for_minute rest target_time
    else get_duty_status_for_minute rest target_time

def sort_by_start (l : List DutyEntry) : List DutyEntry :=
  l.mergeSort (fun a b => a.start_time ≤ b.start_time)

def generate_graph_grid (duty_entries : List DutyEntry) (log_date : ℕ) :
    List GridCell :=
  let sorted := sort_by_start duty_entries
  (List.range 1440).map fun minute =>
    { minute := minute
      hour := minute / 60
      minute_in_hour := minute % 60
      duty_status := get_duty_status_for_minute sorted (log_date * 1440 + minute) }

/-- The claim's reading of minute coverage: the minute's absolute timestamp
lies in `[start_time, end_time)`, an open `end_time` extending forever. -/
def covers_minute (e : DutyEntry) (target : ℕ) : Bool :=
  decide (e.start_time ≤ target) &&
    (match e.end_time with
     | none => true
     | some et => decide (target < et))

/-! Core-app duty-status timeline (apps/core/models.py)

`DutyStatusEntry.save` validates coordinates only when both are present,
raising on the first out-of-range one.  `ELDLocationManager`'s operations run
outside any transaction, so a raised validation error is modelled as
`some message` returned together with the state as it stands at the raise
point.  The entry table is kept newest-first, matching the model's default
`-start_time` ordering that `.first()` relies on. -/

structure CoreDutyStatusEntry where
  id : ℕ
  driver : ℕ
  vehicle : ℕ
  duty_status : String
  previous_duty_status : String
  latitude : Option ℚ
  longitude : Option ℚ
  start_time : ℕ
  end_time : Option ℕ
  odometer_reading : ℕ
deriving Repr, DecidableEq

structure LocationTrackingEntry where
  driver : ℕ
  vehicle : ℕ
  latitude : ℚ
  longitude : ℚ
  recorded_at : ℕ
  odometer_reading : ℕ
  miles_since_last_location : ℤ
  duty_status_entry : ℕ
  interval_sequence : ℕ
deriving Repr, DecidableEq

/-- The denormalized current-status fields cached on the driver row. -/
structure DriverCache where
  current_duty_status : String
  last_duty_change_time : Option ℕ
deriving Repr, DecidableEq

structure ELDState where
  entries : List CoreDutyStatusEntry
  samples : List LocationTrackingEntry
  caches : List (ℕ × DriverCache)
  summaries : List (ℕ × ℕ)
  next_id : ℕ
deriving Repr, DecidableEq

/-- Location validation of `DutyStatusEntry.save`, performed only when both
coordinates are present. -/
def validate_entry_location (lat lon : Option ℚ) : Option String :=
  match lat, lon with
  | some la, some lo =>
    if ¬(-90 ≤ la ∧ la ≤ 90) then
      some "Latitude must be between -90 and 90 degrees"
    else if ¬(-180 ≤ lo ∧ lo ≤ 180) then
      some "Longitude must be between -180 and 180 degrees"
    else none
  | _, _ => none

def is_open_for (d : ℕ) (e : CoreDutyStatusEntry) : Bool :=
  e.driver == d && e.end_time == none

/-- Closing the entry `.first()` returns for the open-entry filter: the first
match in the newest-first list gets its `end_time` set. -/
def close_first_open (d now : ℕ) : List CoreDutyStatusEntry → List CoreDutyStatusEntry
  | [] => []
  | e :: rest =>
    if is_open_for d e then { e with end_time := some now } :: rest
    else e :: close_first_open d now rest

def set_cache (d : ℕ) (c : DriverCache) :
    List (ℕ × DriverCache) → List (ℕ × DriverCache)
  | [] => [(d, c)]
  | (d₀, c₀) :: rest =>
    if d₀ = d then (d, c) :: rest else (d₀, c₀) :: set_cache d c rest

/-- Models `DailyDocumentSummary.objects.get_or_create(driver=..., date=...)`. -/
def add_summary (d day : ℕ) (l : List (ℕ × ℕ)) : List (ℕ × ℕ) :=
  if (d, day) ∈ l then l else (d, day) :: l

/-- Second half of `record_duty_status_change`: create the new entry (its
`save` validating the supplied coordinates), then update the driver's cached
status fields and the day's document summary. -/
def create_new_entry (s : ELDState) (driver vehicle : ℕ) (new_status prev : String)
    (latitude longitude : Option ℚ) (vehicle_odometer now : ℕ) :
    Option String × ELDState :=
  match validate_entry_location latitude longitude with
  | some err => (some err, s)
  | none =>
    let new_entry : CoreDutyStatusEntry :=
      { id := s.next_id, driver := driver, vehicle := vehicle,
        duty_status := new_status, previous_duty_status := prev,
        latitude := latitude, longitude := longitude,
        start_time := now, end_time := none,
        odometer_reading := vehicle_odometer }
    (none,
      { s with
        entries := new_entry :: s.entries,
        caches := set_cache driver ⟨new_status, some now⟩ s.caches,
        summaries := add_summary driver (now / 1440) s.summaries,
        next_id := s.next_id + 1 })

/-- Models `ELDLocationManager.record_duty_status_change`: find the driver's open
entry, close it (its `save` re-validating its own stored coordinates), then
create the new entry with `previous_duty_status` taken from the closed one
(empty string when none existed). -/
def record_duty_status_change (s : ELDState) (driver vehicle : ℕ)
    (new_status : String) (latitude longitude : Option ℚ)
    (vehicle_odometer now : ℕ) : Option String × ELDState :=
  match s.entries.find? (is_open_for driver) with
  | some current_entry =>
    match validate_entry_location current_entry.latitude current_entry.longitude with
    | some err => (some err, s)
    | none =>
      create_new_entry { s with entries := close_first_open driver now s.entries }
        driver vehicle new_status current_entry.duty_status latitude longitude
        vehicle_odometer now
  | none =>
    create_new_entry s driver vehicle new_status "" latitude longitude
      vehicle_odometer now

def is_open_driving_for (d : ℕ) (e : CoreDutyStatusEntry) : Bool :=
  e.driver == d && e.duty_status == "D" && e.end_time == none

/-- One step of scanning for the sample with the maximal sequence number. -/
def pick_later (acc : Option LocationTrackingEntry) (x : LocationTrackingEntry) :
    Option LocationTrackingEntry :=
  match acc with
  | none => some x
  | some a => if a.interval_sequence < x.interval_sequence then some x else some a

/-- The result of ordering the driving interval's samples by descending
`interval_sequence` and taking the first: the sample with the maximal
sequence number. -/
def last_sample_for (entry_id : ℕ) (samples : List LocationTrackingEntry) :
    Option LocationTrackingEntry :=
  (samples.filter (fun x => x.duty_status_entry == entry_id)).foldl pick_later none

/-- Models `ELDLocationManager.record_location_interval`: a no-op returning `None`
(after a logged warning) when the driver has no open `Driving` entry;
otherwise creates the next interval sample.  The `elif
driving_entry.odometer_reading` branch keeps Python's truthiness: a zero
starting odometer leaves `miles_since_last` at 0. -/
def record_location_interval (s : ELDState) (driver vehicle : ℕ)
    (latitude longitude : ℚ) (vehicle_odometer now : ℕ) :
    Option LocationTrackingEntry × ELDState :=
  match s.entries.find? (is_open_driving_for driver) with
  | none => (none, s)
  | some driving_entry =>
    let last_interval := last_sample_for driving_entry.id s.samples
    let sequence : ℕ :=
      match last_interval with
      | some li => li.interval_sequence + 1
      | none => 1
    let miles_since_last : ℤ :=
      match last_interval with
      | some li => (vehicle_odometer : ℤ) - li.odometer_reading
      | none =>
        if driving_entry.odometer_reading ≠ 0 then
          (vehicle_odometer : ℤ) - driving_entry.odometer_reading
        else 0
    let location_entry : LocationTrackingEntry :=
      { driver := driver, vehicle := vehicle, latitude := latitude,
        longitude := longitude, recorded_at := now,
        odometer_reading := vehicle_odometer,
        miles_since_last_location := miles_since_last,
        duty_status_entry := driving_entry.id, interval_sequence := sequence }
    (some location_entry, { s with samples := location_entry :: s.samples })

structure DutyOp where
  driver : ℕ
  vehicle : ℕ
  new_status : String
  latitude : Option ℚ
  longitude : Option ℚ
  vehicle_odometer : ℕ
  now : ℕ
deriving Repr, DecidableEq

def apply_ops (ops : List DutyOp) (s : ELDState) : ELDState :=
  ops.foldl (fun st op =>
    (record_duty_status_change st op.driver op.vehicle op.new_status
      op.latitude op.longitude op.vehicle_odometer op.now).2) s

def initial_state : ELDState := ⟨[], [], [], [], 0⟩

def open_count (d : ℕ) (s : ELDState) : ℕ :=
  (s.entries.filter (is_open_for d)).length

/-! Daily log generation (apps/eld/services.py)

`generate_logs_for_trip` orders the trip's stops by `sequence_order` (the
`stops` list below), raises when there are none, groups them by the calendar
date of `estimated_arrival_time`, and runs `_generate_daily_log` per date:
`ELDLog.objects.get_or_create` keyed on (trip, driver, vehicle, log_date),
with duty-entry synthesis, totals calculation, violation checking and the
audit entry run only when the row was newly created. -/

structure Stop where
  stop_type : String
  estimated_arrival_time : ℕ
  estimated_departure_time : ℕ
  duration_minutes : ℕ
deriving Repr, DecidableEq

structure Trip where
  id : ℕ
  driver : ℕ
  vehicle : ℕ
  current_cycle_hours : ℚ
  stops : List Stop
deriving Repr, DecidableEq

/-- Whether `stops[0].estimated_arrival_time.time() != datetime.min.time()`: the
first stop does not arrive exactly at midnight (or there are no stops). -/
def needs_initial_off (stops : List Stop) : Bool :=
  match stops with
  | [] => true
  | st :: _ => st.estimated_arrival_time % 1440 != 0

/-- The per-stop entries of `_generate_duty_entries`: a 15-minute pre-trip
inspection before pickup/dropoff arrival, the stop activity itself, and a
`D` entry to the next stop when the gap is positive.  The pre-trip start
`arrival - 15` uses truncated subtraction (arrivals are at least 15 minutes
into the epoch in any realistic timeline). -/
def stop_activity_entries : List Stop → List DutyEntry
  | [] => []
  | st :: rest =>
    (if st.stop_type = "pickup" ∨ st.stop_type = "dropoff" then
      [⟨"ON", st.estimated_arrival_time - 15, some st.estimated_arrival_time, 15⟩]
     else []) ++
    (if st.stop_type = "pickup" ∨ st.stop_type = "dropoff" ∨ st.stop_type = "fuel" then
      [⟨"ON", st.estimated_arrival_time, some st.estimated_departure_time,
        st.duration_minutes⟩]
     else if st.stop_type = "rest" ∨ st.stop_type = "mandatory_break" then
      [⟨if 480 ≤ st.duration_minutes then "SB" else "OFF",
        st.estimated_arrival_time, some st.estimated_departure_time,
        st.duration_minutes⟩]
     else []) ++
    (match rest.head? with
     | some nxt =>
       if 0 < (nxt.estimated_arrival_time : ℤ) - st.estimated_departure_time then
         [⟨"D", st.estimated_departure_time, some nxt.estimated_arrival_time,
           ((nxt.estimated_arrival_time : ℤ) - st.estimated_departure_time).toNat⟩]
       else []
     | none => []) ++
    stop_activity_entries rest

def generate_duty_entries (log_date : ℕ) (stops : List Stop) : List DutyEntry :=
  (if needs_initial_off stops then [⟨"OFF", log_date * 1440, none, 0⟩] else []) ++
  stop_activity_entries stops

/-- Models `_calculate_daily_totals`: sum the entries' minutes per status
bucket and store `Decimal(minutes / 60)` — the true-division float quotient,
i.e. the binary64 rounding of `minutes / 60`, captured exactly by the
`Decimal` conversion. -/
def calculate_daily_totals (log : EldDailyLog) : EldDailyLog :=
  let totals := log.duty_entries.foldl
    (fun (t : ℕ × ℕ × ℕ) e =>
      if e.duty_status = "D" then
        (t.1 + e.duration_minutes, t.2.1 + e.duration_minutes, t.2.2)
      else if e.duty_status = "ON" then
        (t.1, t.2.1 + e.duration_minutes, t.2.2)
      else if e.duty_status = "OFF" ∨ e.duty_status = "SB" then
        (t.1, t.2.1, t.2.2 + e.duration_minutes)
      else t)
    (0, 0, 0)
  { log with
    total_drive_time := double_round ((totals.1 : ℚ) / 60),
    total_on_duty_time := double_round ((totals.2.1 : ℚ) / 60),
    total_off_duty_time := double_round ((totals.2.2 : ℚ) / 60) }

def log_key_matches (t d v dt : ℕ) (l : EldDailyLog) : Bool :=
  l.trip == t && l.driver == d && l.vehicle == v && l.log_date == dt

/-- Models `_generate_daily_log`: get-or-create; synthesis, totals, violations and
the audit entry only run for a newly created row. -/
def generate_daily_log (trip : Trip) (log_date : ℕ) (stops : List Stop)
    (logs : List EldDailyLog) : List EldDailyLog :=
  match logs.find? (log_key_matches trip.id trip.driver trip.vehicle log_date) with
  | some _ => logs
  | none =>
    let created : EldDailyLog :=
      { trip := trip.id, driver := trip.driver, vehicle := trip.vehicle,
        log_date := log_date, cycle_hours_used := trip.current_cycle_hours,
        total_drive_time := 0, total_on_duty_time := 0, total_off_duty_time := 0,
        is_compliant := true, duty_entries := [], violations := [],
        audit_actions := [] }
    let with_entries : EldDailyLog :=
      { created with duty_entries := generate_duty_entries log_date stops }
    let with_totals := calculate_daily_totals with_entries
    let checked := (check_violations with_totals).2
    { checked with audit_actions := checked.audit_actions ++ ["CREATED"] } :: logs

def stop_log_date (st : Stop) : ℕ := st.estimated_arrival_time / 1440

/-- Models `_group_stops_by_date`: distinct arrival dates in first-seen order. -/
def group_stop_dates (stops : List Stop) : List ℕ :=
  stops.foldl
    (fun acc st =>
      if stop_log_date st ∈ acc then acc else acc ++ [stop_log_date st]) []

/-- One iteration of the per-date loop of `generate_logs_for_trip`. -/
def generate_daily_log_step (trip : Trip) (ls : List EldDailyLog) (d : ℕ) :
    List EldDailyLog :=
  generate_daily_log trip d
    (trip.stops.filter (fun st => stop_log_date st == d)) ls

def generate_logs_for_trip (trip : Trip) (logs : List EldDailyLog) :
    Option String × List EldDailyLog :=
  if trip.stops = [] then (some "Trip has no stops defined", logs)
  else
    (none,
      (group_stop_dates trip.stops).foldl (generate_daily_log_step trip) logs)

/-- A daily log for this trip's key and the given date exists. -/
def has_log (trip : Trip) (d : ℕ) (logs : List EldDailyLog) : Bool :=
  (logs.find? (log_key_matches trip.id trip.driver trip.vehicle d)).isSome

end TripPlanner

namespace TripPlanner

/-! ## Theorems -/

/-- C1, counterexample: At cycle_hours = 70 with an inactive driver, the
source's `can_drive` reports "Driver is inactive", not the cycle-limit reason
that the claimed priority order (cycle → drive → duty → inactive) dictates. -/
theorem can_drive_priority_counterexample :
    (can_drive 70 0 0 false).2 = "Driver is inactive" ∧
    (can_drive_claim_order 70 0 0 false).2 = "70-hour cycle limit reached" ∧
    (can_drive 70 0 0 false).2 ≠ (can_drive_claim_order 70 0 0 false).2 := by
  refine ⟨rfl, by norm_num [can_drive_claim_order], ?_⟩
  simp only [can_drive, can_drive_claim_order]
  norm_num
  decide

/-- C1, amended: `can_drive` returns `true` exactly when the driver is
active and every hour counter is strictly below its limit (`>=` trips each
check); otherwise it returns `false` with the reason of the first tripped
condition in the source's priority order inactive → cycle → daily drive →
daily duty. -/
theorem can_drive_spec (c dr du : ℚ) (a : Bool) :
    ((can_drive c dr du a).1 = true ↔
      a = true ∧ c < 70 ∧ dr < 11 ∧ du < 14) ∧
    (a = false → can_drive c dr du a = (false, "Driver is inactive")) ∧
    (a = true → 70 ≤ c →
      can_drive c dr du a = (false, "70-hour cycle limit reached")) ∧
    (a = true → c < 70 → 11 ≤ dr →
      can_drive c dr du a = (false, "11-hour daily drive limit reached")) ∧
    (a = true → c < 70 → dr < 11 → 14 ≤ du →
      can_drive c dr du a = (false, "14-hour daily duty limit reached")) ∧
    (a = true → c < 70 → dr < 11 → du < 14 →
      can_drive c dr du a = (true, "Can drive")) := by
  cases a <;>
    simp only [can_drive] <;>
    split_ifs <;>
    simp_all

/-- C1, witness: A driver with 72 cycle hours and otherwise clear counters
is refused with the cycle-limit reason. -/
theorem can_drive_spec_witness :
    can_drive 72 0 0 true = (false, "70-hour cycle limit reached") :=
  (can_drive_spec 72 0 0 true).2.2.1 rfl (by norm_num)

/-- C10: `update_odometer` raises (and leaves the vehicle untouched) for
any reading strictly below the current odometer, and otherwise installs the
new reading and returns the non-negative delta; in all cases the odometer
never decreases. -/
theorem update_odometer_spec (v : Vehicle) (n : ℕ) :
    (n < v.current_odometer →
      update_odometer v n = (Except.error "Odometer reading cannot decrease", v)) ∧
    (v.current_odometer ≤ n →
      (update_odometer v n).1 = Except.ok (n - v.current_odometer) ∧
      (update_odometer v n).2.current_odometer = n) ∧
    v.current_odometer ≤ (update_odometer v n).2.current_odometer := by
  unfold update_odometer
  split_ifs with h₁
  · exact ⟨fun _ => rfl, fun h => absurd h₁ (not_lt.mpr h), le_rfl⟩
  · refine ⟨fun h => absurd h h₁, fun _ => ⟨rfl, ?_⟩, ?_⟩ <;>
      simp only [] <;> split_ifs <;> simp <;> omega

/-- C10, witness: A reading of 90 against an odometer at 100 errors and
preserves the vehicle; a reading of 120 succeeds with a delta of 20. -/
theorem update_odometer_spec_witness :
    update_odometer ⟨100, 5⟩ 90 =
      (Except.error "Odometer reading cannot decrease", ⟨100, 5⟩) ∧
    (update_odometer ⟨100, 5⟩ 120).1 = Except.ok 20 ∧
    (update_odometer ⟨100, 5⟩ 120).2.current_odometer = 120 :=
  ⟨(update_odometer_spec ⟨100, 5⟩ 90).1 (by norm_num),
   ((update_odometer_spec ⟨100, 5⟩ 120).2.1 (by norm_num)).1,
   ((update_odometer_spec ⟨100, 5⟩ 120).2.1 (by norm_num)).2⟩

/-- C7, counterexample: A `Driving` interval of exactly 60 minutes (3600
seconds) with zero recorded samples is not flagged: the source's guard is
strictly `> 3600` seconds, so exactly one hour requires 0 samples, not 1. -/
theorem sixty_minute_boundary_counterexample :
    check_driving_interval 3600 0 = none ∧ required_samples 3600 = 0 := by
  constructor <;> rfl

/-- C7, amended: A driving interval is flagged with
`expected = duration_seconds / 3600` (floor) exactly when it is strictly
longer than 3600 seconds and the sample count falls short of that quotient;
at the boundary, exactly 60 minutes and 59 minutes require 0 samples, while
61 minutes requires 1. -/
theorem check_driving_interval_spec :
    (∀ dur n : ℕ, check_driving_interval dur n = some ⟨dur / 3600, n⟩ ↔
      3600 < dur ∧ n < dur / 3600) ∧
    required_samples 3600 = 0 ∧
    required_samples (59 * 60) = 0 ∧
    required_samples (61 * 60) = 1 ∧
    check_driving_interval (61 * 60) 0 = some ⟨1, 0⟩ := by
  refine ⟨fun dur n => ?_, rfl, rfl, rfl, rfl⟩
  simp only [check_driving_interval]
  by_cases h₁ : 3600 < dur <;> by_cases h₂ : n < dur / 3600 <;>
    simp [h₁, h₂]

/-! Helper lemmas about `py_int` and the max-style fold in `longest_rest`. -/

theorem py_int_intCast (z : ℤ) : py_int (z : ℚ) = z := by
  unfold py_int
  split_ifs <;> simp

theorem int_log_two_eq (q : ℚ) (e : ℤ) (h0 : 0 < q)
    (h1 : (2:ℚ)^e ≤ q) (h2 : q < (2:ℚ)^(e+1)) :
    Int.log 2 q = e := by
  have hb : 1 < (2:ℕ) := by norm_num
  have h1a : ((2:ℕ):ℚ)^e ≤ q := by push_cast; exact h1
  have h2a : q < ((2:ℕ):ℚ)^(e+1) := by push_cast; exact h2
  have hle : e ≤ Int.log 2 q := (Int.zpow_le_iff_le_log hb h0).mp h1a
  have hlt : Int.log 2 q < e + 1 := by
    by_contra hcon
    push_neg at hcon
    exact absurd ((Int.zpow_le_iff_le_log hb h0).mpr hcon) (not_le.mpr h2a)
  omega

theorem double_round_eq (q : ℚ) (e n : ℤ) (h0 : 0 < q)
    (h1 : (2:ℚ)^e ≤ q) (h2 : q < (2:ℚ)^(e+1))
    (hn1 : (n:ℚ) ≤ q * (2:ℚ)^((52:ℤ) - e))
    (hn2 : q * (2:ℚ)^((52:ℤ) - e) - n < 1/2) :
    double_round q = (n:ℚ) / (2:ℚ)^((52:ℤ) - e) := by
  have hne : q ≠ 0 := ne_of_gt h0
  have habs : |q| = q := abs_of_pos h0
  have hfl : ⌊q * (2:ℚ)^((52:ℤ) - e)⌋ = n :=
    Int.floor_eq_iff.mpr ⟨hn1, by linarith⟩
  unfold double_round
  rw [if_neg hne, habs, int_log_two_eq q e h0 h1 h2]
  dsimp only
  rw [hfl, if_pos hn2, if_neg (not_lt.mpr (le_of_lt h0))]

theorem double_round_zero : double_round 0 = 0 := by
  unfold double_round
  rw [if_pos rfl]

theorem double_round_23_2 : double_round (23/2 : ℚ) = 23/2 := by
  have h := double_round_eq (23/2 : ℚ) 3 6473924464345088
    (by norm_num) (by norm_num) (by norm_num) (by norm_num) (by norm_num)
  rw [h]
  norm_num

theorem double_round_half : double_round (1/2 : ℚ) = 1/2 := by
  have h := double_round_eq (1/2 : ℚ) (-1) 4503599627370496
    (by norm_num) (by norm_num) (by norm_num) (by norm_num) (by norm_num)
  rw [h]
  norm_num

theorem double_round_30 : double_round (30 : ℚ) = 30 := by
  have h := double_round_eq (30 : ℚ) 4 8444249301319680
    (by norm_num) (by norm_num) (by norm_num) (by norm_num) (by norm_num)
  rw [h]
  norm_num

/-- The double nearest `67/6 = 670/60` rounds down by a third of an ulp. -/
theorem double_round_67_6 :
    double_round (67/6 : ℚ) = 6286274479871317 / 562949953421312 := by
  have h := double_round_eq (67/6 : ℚ) 3 6286274479871317
    (by norm_num) (by norm_num) (by norm_num) (by norm_num) (by norm_num)
  rw [h]
  norm_num

theorem double_round_v670 :
    double_round (6286274479871317 / 562949953421312 : ℚ)
      = 6286274479871317 / 562949953421312 := by
  have h := double_round_eq (6286274479871317 / 562949953421312 : ℚ) 3
    6286274479871317
    (by norm_num) (by norm_num) (by norm_num) (by norm_num) (by norm_num)
  rw [h]
  norm_num

theorem double_round_r670 :
    double_round (93824992236885 / 562949953421312 : ℚ)
      = 93824992236885 / 562949953421312 := by
  have h := double_round_eq (93824992236885 / 562949953421312 : ℚ) (-3)
    6004799503160640
    (by norm_num) (by norm_num) (by norm_num) (by norm_num) (by norm_num)
  rw [h]
  norm_num

theorem double_round_p670 :
    double_round (5629499534213100 / 562949953421312 : ℚ)
      = 5629499534213100 / 562949953421312 := by
  have h := double_round_eq (5629499534213100 / 562949953421312 : ℚ) 3
    5629499534213100
    (by norm_num) (by norm_num) (by norm_num) (by norm_num) (by norm_num)
  rw [h]
  norm_num

/-- Scenario B's float pipeline: 11.5, 0.5 and 30 are all exact doubles, so
the truncated result is exactly 30 minutes. -/
theorem float_duration_scenB :
    float_duration_minutes (23/2 : ℚ) 11 = 30 := by
  unfold float_duration_minutes
  rw [double_round_23_2]
  rw [show (23/2 : ℚ) - 11 = 1/2 by norm_num]
  rw [double_round_half]
  rw [show (1/2 : ℚ) * 60 = 30 by norm_num]
  rw [double_round_30]
  have h := py_int_intCast 30
  simpa using h

/-- The float pipeline at the stored double for 670 driving minutes: the
subtraction and multiplication are exact, yielding `10 - 20 * 2 ^ (-49)`,
which truncates to 9. -/
theorem float_duration_cx670 :
    float_duration_minutes (6286274479871317 / 562949953421312 : ℚ) 11 = 9 := by
  unfold float_duration_minutes
  rw [double_round_v670]
  rw [show (6286274479871317 / 562949953421312 : ℚ) - 11
      = 93824992236885 / 562949953421312 by norm_num]
  rw [double_round_r670]
  rw [show (93824992236885 / 562949953421312 : ℚ) * 60
      = 5629499534213100 / 562949953421312 by norm_num]
  rw [double_round_p670]
  unfold py_int
  rw [if_pos (by norm_num), Int.floor_eq_iff]
  constructor <;> norm_num

/-- Totals of a day holding a single 690-minute driving entry. -/
theorem scenB_totals :
    calculate_daily_totals
      ⟨1, 1, 1, 0, 0, 0, 0, 0, true, [⟨"D", 0, some 690, 690⟩], [], []⟩
      = ⟨1, 1, 1, 0, 0, 23/2, 23/2, 0, true, [⟨"D", 0, some 690, 690⟩], [], []⟩ := by
  unfold calculate_daily_totals
  norm_num [double_round_zero, double_round_23_2]

/-- Totals of a day holding a single 670-minute driving entry: the stored
drive and duty times are the double nearest `670/60`. -/
theorem cx670_totals :
    calculate_daily_totals
      ⟨1, 1, 1, 0, 0, 0, 0, 0, true, [⟨"D", 0, some 670, 670⟩], [], []⟩
      = ⟨1, 1, 1, 0, 0, 6286274479871317 / 562949953421312,
          6286274479871317 / 562949953421312, 0, true,
          [⟨"D", 0, some 670, 670⟩], [], []⟩ := by
  unfold calculate_daily_totals
  norm_num [double_round_zero, double_round_67_6]

theorem le_foldl_rest (l : List DutyEntry) (a : ℚ) :
    a ≤ l.foldl
      (fun longest e =>
        if longest < (e.duration_minutes : ℚ) / 60 then (e.duration_minutes : ℚ) / 60
        else longest) a := by
  induction l generalizing a with
  | nil => exact le_rfl
  | cons e t ih =>
    refine le_trans ?_ (ih _)
    dsimp only
    split_ifs with h
    · exact le_of_lt h
    · exact le_rfl

theorem mem_le_foldl_rest (l : List DutyEntry) (a : ℚ) :
    ∀ e ∈ l, (e.duration_minutes : ℚ) / 60 ≤ l.foldl
      (fun longest e =>
        if longest < (e.duration_minutes : ℚ) / 60 then (e.duration_minutes : ℚ) / 60
        else longest) a := by
  induction l generalizing a with
  | nil => intro e h; exact absurd h (List.not_mem_nil e)
  | cons x t ih =>
    intro e he
    rcases List.mem_cons.mp he with rfl | ht
    · refine le_trans ?_ (le_foldl_rest t _)
      dsimp only
      split_ifs with h
      · exact le_rfl
      · exact le_of_not_lt h
    · exact ih _ e ht

theorem foldl_rest_cases (l : List DutyEntry) (a : ℚ) :
    l.foldl
      (fun longest e =>
        if longest < (e.duration_minutes : ℚ) / 60 then (e.duration_minutes : ℚ) / 60
        else longest) a = a ∨
    ∃ e ∈ l, l.foldl
      (fun longest e =>
        if longest < (e.duration_minutes : ℚ) / 60 then (e.duration_minutes : ℚ) / 60
        else longest) a = (e.duration_minutes : ℚ) / 60 := by
  induction l generalizing a with
  | nil => exact Or.inl rfl
  | cons x t ih =>
    simp only [List.foldl_cons]
    split_ifs with h
    · rcases ih ((x.duration_minutes : ℚ) / 60) with h₁ | ⟨e, he, heq⟩
      · exact Or.inr ⟨x, List.mem_cons_self x t, h₁⟩
      · exact Or.inr ⟨e, List.mem_cons_of_mem x he, heq⟩
    · rcases ih a with h₁ | ⟨e, he, heq⟩
      · exact Or.inl h₁
      · exact Or.inr ⟨e, List.mem_cons_of_mem x he, heq⟩

/-- C3, counterexample: a generated day of 670 driving minutes stores
`total_drive_time = Decimal(670/60)`, whose value is the double
`6286274479871317 / 2^49` (a third of an ulp below `67/6`); the float
pipeline then computes `10 - 20 * 2^(-49)` and truncates it to 9 — one
minute short of the exact `(total_drive_time - 11) * 60` the claim states. -/
theorem drive_duration_float_counterexample :
    11 < (calculate_daily_totals
      ⟨1, 1, 1, 0, 0, 0, 0, 0, true, [⟨"D", 0, some 670, 670⟩], [], []⟩).total_drive_time ∧
    (check_violations (calculate_daily_totals
      ⟨1, 1, 1, 0, 0, 0, 0, 0, true, [⟨"D", 0, some 670, 670⟩], [], []⟩)).1
      = [⟨"DAILY_DRIVE_EXCEEDED", "HIGH", 9⟩] ∧
    ((9 : ℚ) ≠
      ((calculate_daily_totals
        ⟨1, 1, 1, 0, 0, 0, 0, 0, true, [⟨"D", 0, some 670, 670⟩], [], []⟩).total_drive_time
        - 11) * 60) := by
  rw [cx670_totals]
  refine ⟨by norm_num, ?_, by norm_num⟩
  norm_num [check_violations, float_duration_cx670]

/-- C3, amended: `_check_violations` emits a `DAILY_DRIVE_EXCEEDED` violation
of severity `HIGH` exactly when `total_drive_time > 11` and a `CYCLE_EXCEEDED`
violation of severity `CRITICAL` exactly when `cycle_hours_used > 70` (exact
decimal comparisons), each with
`duration_minutes = int((float(value) - limit) * 60)` computed in binary64
floating point — which can fall short of the exact `(value - limit) * 60` —
and marks the log non-compliant exactly when it emits anything; a generated
day of 690 driving minutes (11.5 hours, exactly representable) yields the
single violation `DAILY_DRIVE_EXCEEDED`/`HIGH`/30 and a non-compliant log. -/
theorem check_violations_spec (log : EldDailyLog) :
    (((∃ v ∈ (check_violations log).1, v.violation_type = "DAILY_DRIVE_EXCEEDED") ↔
        11 < log.total_drive_time) ∧
      (∀ v ∈ (check_violations log).1, v.violation_type = "DAILY_DRIVE_EXCEEDED" →
        v.severity = "HIGH" ∧
        v.duration_minutes = float_duration_minutes log.total_drive_time 11) ∧
      ((∃ v ∈ (check_violations log).1, v.violation_type = "CYCLE_EXCEEDED") ↔
        70 < log.cycle_hours_used) ∧
      (∀ v ∈ (check_violations log).1, v.violation_type = "CYCLE_EXCEEDED" →
        v.severity = "CRITICAL" ∧
        v.duration_minutes = float_duration_minutes log.cycle_hours_used 70) ∧
      ((check_violations log).1 ≠ [] → (check_violations log).2.is_compliant = false) ∧
      ((check_violations log).1 = [] → (check_violations log).2 = log)) ∧
    ((check_violations (calculate_daily_totals
        ⟨1, 1, 1, 0, 0, 0, 0, 0, true, [⟨"D", 0, some 690, 690⟩], [], []⟩)).1
      = [⟨"DAILY_DRIVE_EXCEEDED", "HIGH", 30⟩] ∧
      (check_violations (calculate_daily_totals
        ⟨1, 1, 1, 0, 0, 0, 0, 0, true,
          [⟨"D", 0, some 690, 690⟩], [], []⟩)).2.is_compliant = false) := by
  constructor
  · refine ⟨?_, ?_, ?_, ?_, ?_, ?_⟩ <;>
      by_cases h₁ : 11 < log.total_drive_time <;>
      by_cases h₂ : 14 < log.total_on_duty_time <;>
      by_cases h₃ : 70 < log.cycle_hours_used <;>
      simp [check_violations, h₁, h₂, h₃]
  · rw [scenB_totals]
    constructor
    · norm_num [check_violations, float_duration_scenB]
    · norm_num [check_violations, float_duration_scenB]

/-- C3, witness: a 690-minute driving day produces a non-empty violation list
and a non-compliant log. -/
theorem check_violations_spec_witness :
    (check_violations (calculate_daily_totals
      ⟨1, 1, 1, 0, 0, 0, 0, 0, true, [⟨"D", 0, some 690, 690⟩], [], []⟩)).1 ≠ [] ∧
    (check_violations (calculate_daily_totals
      ⟨1, 1, 1, 0, 0, 0, 0, 0, true,
        [⟨"D", 0, some 690, 690⟩], [], []⟩)).2.is_compliant = false := by
  have h := check_violations_spec
    (calculate_daily_totals
      ⟨1, 1, 1, 0, 0, 0, 0, 0, true, [⟨"D", 0, some 690, 690⟩], [], []⟩)
  refine ⟨?_, h.2.2⟩
  rw [h.2.1]
  simp

/-- C8, counterexample: A day containing a 6-hour `OFF` entry immediately
followed by a 6-hour `SB` entry (a 12-hour contiguous rest stretch) with
2 hours of driving is still flagged `INSUFFICIENT_REST`: the source takes the
maximum over single entries and never merges adjacent rest entries. -/
theorem insufficient_rest_merged_counterexample :
    check_rest_periods
      [⟨"D", 0, some 60, 60⟩, ⟨"OFF", 60, some 420, 360⟩,
       ⟨"SB", 420, some 780, 360⟩, ⟨"D", 780, some 840, 60⟩] 2
      = [("INSUFFICIENT_REST", "MEDIUM")] ∧
    10 ≤ longest_merged_rest
      [⟨"D", 0, some 60, 60⟩, ⟨"OFF", 60, some 420, 360⟩,
       ⟨"SB", 420, some 780, 360⟩, ⟨"D", 780, some 840, 60⟩] ∧
    longest_rest
      [⟨"D", 0, some 60, 60⟩, ⟨"OFF", 60, some 420, 360⟩,
       ⟨"SB", 420, some 780, 360⟩, ⟨"D", 780, some 840, 60⟩] < 10 := by
  refine ⟨?_, ?_, ?_⟩
  · norm_num [check_rest_periods, longest_rest, is_rest_status, List.filter] <;> simp <;> norm_num
  · norm_num [longest_merged_rest, longest_merged_rest_aux, is_rest_status] <;> simp <;> norm_num
  · norm_num [longest_rest, is_rest_status, List.filter] <;> simp <;> norm_num

/-- C8, amended: For every daily log, `_check_rest_periods` emits exactly
one `INSUFFICIENT_REST` violation of severity `MEDIUM` precisely when the
longest *single* `OFF`/`SB` entry is shorter than 10 hours and
`total_drive_time > 0` (adjacent rest entries are not merged); a day with no
driving never yields the violation, and `longest_rest` is the maximum of the
individual rest entries' durations in hours. -/
theorem check_rest_periods_spec (entries : List DutyEntry) (drive : ℚ) :
    (check_rest_periods entries drive ≠ [] ↔
      longest_rest entries < 10 ∧ 0 < drive) ∧
    (∀ v ∈ check_rest_periods entries drive, v = ("INSUFFICIENT_REST", "MEDIUM")) ∧
    (drive ≤ 0 → check_rest_periods entries drive = []) ∧
    (∀ e ∈ entries, is_rest_status e = true →
      (e.duration_minutes : ℚ) / 60 ≤ longest_rest entries) ∧
    (longest_rest entries = 0 ∨
      ∃ e ∈ entries, is_rest_status e = true ∧
        longest_rest entries = (e.duration_minutes : ℚ) / 60) := by
  refine ⟨?_, ?_, ?_, ?_, ?_⟩
  · unfold check_rest_periods
    split_ifs with h <;> simp [h]
  · unfold check_rest_periods
    split_ifs with h <;> simp
  · intro hdr
    unfold check_rest_periods
    split_ifs with h
    · exact absurd h.2 (not_lt.mpr hdr)
    · rfl
  · intro e he hr
    exact mem_le_foldl_rest _ 0 e (List.mem_filter.mpr ⟨he, hr⟩)
  · rcases foldl_rest_cases (entries.filter is_rest_status) 0 with h | ⟨e, he, heq⟩
    · exact Or.inl h
    · obtain ⟨hmem, hrest⟩ := List.mem_filter.mp he
      exact Or.inr ⟨e, hmem, hrest, heq⟩

/-- C8, witness: A day with driving and no rest entries at all is
flagged. -/
theorem check_rest_periods_spec_witness :
    check_rest_periods [] 1 ≠ [] :=
  (check_rest_periods_spec [] 1).1.mpr ⟨by norm_num [longest_rest], by norm_num⟩

theorem get_duty_status_eq_find (l : List DutyEntry) (t : ℕ) :
    get_duty_status_for_minute l t =
      match l.find? (fun e => covers_minute e t) with
      | some e => e.duty_status
      | none => "OFF" := by
  induction l with
  | nil => rfl
  | cons e rest ih =>
    by_cases hs : e.start_time ≤ t
    · rcases hend : e.end_time with _ | et
      · rw [List.find?_cons_of_pos]
        · simp [get_duty_status_for_minute, hs, hend]
        · simp [covers_minute, hs, hend]
      · by_cases het : t < et
        · rw [List.find?_cons_of_pos]
          · simp [get_duty_status_for_minute, hs, hend, het]
          · simp [covers_minute, hs, hend, het]
        · rw [List.find?_cons_of_neg]
          · simp [get_duty_status_for_minute, hs, hend, het, ih]
          · simp [covers_minute, hs, hend, het]
    · rw [List.find?_cons_of_neg]
      · simp [get_duty_status_for_minute, hs, ih]
      · simp [covers_minute, hs]

/-- C6: On the intended reading of the day-start (the source's
`datetime.time()` raises `TypeError`; see the model's note), the rendered
grid consists of exactly 1440 minute cells, and minute `m`'s status is the
status of the first interval in start-time order whose
`[start_time, end_time)` contains the absolute timestamp
`day-start + m` minutes, defaulting to `OFF` when no interval covers it. -/
theorem generate_graph_grid_spec (entries : List DutyEntry) (log_date : ℕ) :
    (generate_graph_grid entries log_date).length = 1440 ∧
    generate_graph_grid entries log_date =
      (List.range 1440).map (fun m =>
        { minute := m
          hour := m / 60
          minute_in_hour := m % 60
          duty_status :=
            match (sort_by_start entries).find?
                (fun e => covers_minute e (log_date * 1440 + m)) with
            | some e => e.duty_status
            | none => "OFF" }) := by
  constructor
  · simp [generate_graph_grid]
  · unfold generate_graph_grid
    exact List.map_congr_left fun m _ => by
      simp [get_duty_status_eq_find]

/-! Helper lemmas about `close_first_open` and `open_count`. -/

theorem close_first_open_length (d now : ℕ) (l : List CoreDutyStatusEntry) :
    (close_first_open d now l).length = l.length := by
  induction l with
  | nil => rfl
  | cons e rest ih =>
    unfold close_first_open
    split_ifs <;> simp [ih]

theorem close_first_open_of_find_none (d now : ℕ) (l : List CoreDutyStatusEntry)
    (h : l.find? (is_open_for d) = none) : close_first_open d now l = l := by
  induction l with
  | nil => rfl
  | cons e rest ih =>
    have he := List.find?_eq_none.mp h e (List.mem_cons_self e rest)
    have hrest : rest.find? (is_open_for d) = none :=
      List.find?_eq_none.mpr fun x hx =>
        List.find?_eq_none.mp h x (List.mem_cons_of_mem e hx)
    unfold close_first_open
    simp [he, ih hrest]

theorem filter_close_first_open_other (d d' now : ℕ) (hne : d' ≠ d)
    (l : List CoreDutyStatusEntry) :
    (close_first_open d now l).filter (is_open_for d') =
      l.filter (is_open_for d') := by
  induction l with
  | nil => rfl
  | cons e rest ih =>
    unfold close_first_open
    by_cases he : is_open_for d e = true
    · have hdriver : e.driver = d := by
        simp only [is_open_for, Bool.and_eq_true, beq_iff_eq] at he
        exact he.1
      have h1 : is_open_for d' { e with end_time := some now } = false := by
        simp [is_open_for]
      have h2 : is_open_for d' e = false := by
        simp only [is_open_for, Bool.and_eq_false_iff]
        left
        simp [hdriver, Ne.symm hne]
      simp [he, List.filter_cons, h1, h2]
    · simp [he, List.filter_cons, ih]

theorem filter_close_first_open_same (d now : ℕ) (l : List CoreDutyStatusEntry)
    (ce : CoreDutyStatusEntry) (h : l.find? (is_open_for d) = some ce) :
    (l.filter (is_open_for d)).length =
      ((close_first_open d now l).filter (is_open_for d)).length + 1 := by
  induction l with
  | nil => simp at h
  | cons e rest ih =>
    by_cases he : is_open_for d e = true
    · have hclosed : is_open_for d { e with end_time := some now } = false := by
        simp [is_open_for]
      unfold close_first_open
      simp [he, List.filter_cons, hclosed]
    · rw [List.find?_cons_of_neg _ (by simp [he])] at h
      unfold close_first_open
      simp [he, List.filter_cons, ih h]

theorem closed_entry_mem_close_first_open (d now : ℕ) (l : List CoreDutyStatusEntry)
    (ce : CoreDutyStatusEntry) (h : l.find? (is_open_for d) = some ce) :
    { ce with end_time := some now } ∈ close_first_open d now l := by
  induction l with
  | nil => simp at h
  | cons e rest ih =>
    by_cases he : is_open_for d e = true
    · rw [List.find?_cons_of_pos _ he] at h
      injection h with h
      subst h
      unfold close_first_open
      simp [he]
    · rw [List.find?_cons_of_neg _ (by simp [he])] at h
      unfold close_first_open
      simp [he, ih h]

theorem open_count_create_new_entry (s : ELDState) (driver vehicle : ℕ)
    (st prev : String) (lat lon : Option ℚ) (odo now : ℕ) (d : ℕ) :
    open_count d (create_new_entry s driver vehicle st prev lat lon odo now).2 =
      if validate_entry_location lat lon = none ∧ d = driver
      then open_count d s + 1 else open_count d s := by
  unfold create_new_entry
  cases hv : validate_entry_location lat lon with
  | some err => simp [open_count]
  | none =>
    by_cases hd : d = driver
    · subst hd
      simp [open_count, List.filter_cons, is_open_for]
    · simp [open_count, List.filter_cons, is_open_for, hd, Ne.symm hd]

theorem record_preserves_open_invariant (s : ELDState) (driver vehicle : ℕ)
    (st : String) (lat lon : Option ℚ) (odo now : ℕ)
    (h : ∀ d, open_count d s ≤ 1) (d : ℕ) :
    open_count d
      (record_duty_status_change s driver vehicle st lat lon odo now).2 ≤ 1 := by
  unfold record_duty_status_change
  cases hf : s.entries.find? (is_open_for driver) with
  | none =>
    dsimp only
    rw [open_count_create_new_entry]
    split_ifs with hc
    · obtain ⟨hv, hd⟩ := hc
      subst hd
      have h0 : open_count d s = 0 := by
        unfold open_count
        have hnil : s.entries.filter (is_open_for d) = [] :=
          List.filter_eq_nil_iff.mpr fun x hx => List.find?_eq_none.mp hf x hx
        rw [hnil]
        rfl
      omega
    · exact h d
  | some ce =>
    dsimp only
    cases hv : validate_entry_location ce.latitude ce.longitude with
    | some err => exact h d
    | none =>
      dsimp only
      rw [open_count_create_new_entry]
      have hsame := filter_close_first_open_same driver now s.entries ce hf
      split_ifs with hc
      · obtain ⟨hv2, hd⟩ := hc
        subst hd
        have hle := h d
        unfold open_count at *
        dsimp only at *
        omega
      · by_cases hd : d = driver
        · subst hd
          have hle := h d
          unfold open_count at *
          dsimp only at *
          omega
        · have heq := filter_close_first_open_other driver d now hd s.entries
          unfold open_count at *
          dsimp only at *
          rw [heq]
          exact h d

theorem apply_ops_open_invariant (ops : List DutyOp) (s : ELDState)
    (h : ∀ d, open_count d s ≤ 1) : ∀ d, open_count d (apply_ops ops s) ≤ 1 := by
  induction ops generalizing s with
  | nil => exact h
  | cons op rest ih =>
    exact ih _ fun d => record_preserves_open_invariant _ _ _ _ _ _ _ _ h d

/-- C2: Starting from an empty table, any sequence of
`record_duty_status_change` operations leaves at most one open entry
(`end_time = None`) per driver; and every successful call prepends exactly one
new open entry for the driver whose `previous_duty_status` is the closed
entry's status (empty string when none was open), the previously open entry
being kept with its `end_time` set to `now`. -/
theorem duty_status_open_interval_invariant :
    (∀ ops d, open_count d (apply_ops ops initial_state) ≤ 1) ∧
    (∀ s driver vehicle st lat lon odo now,
      (record_duty_status_change s driver vehicle st lat lon odo now).1 = none →
      ∃ e, (record_duty_status_change s driver vehicle st lat lon odo now).2.entries =
          e :: close_first_open driver now s.entries ∧
        e.driver = driver ∧ e.end_time = none ∧ e.duty_status = st ∧
        e.previous_duty_status =
          (match s.entries.find? (is_open_for driver) with
           | some ce => ce.duty_status
           | none => "") ∧
        (∀ ce, s.entries.find? (is_open_for driver) = some ce →
          { ce with end_time := some now } ∈
            (record_duty_status_change s driver vehicle st lat lon odo now).2.entries)) := by
  constructor
  · intro ops d
    refine apply_ops_open_invariant ops initial_state (fun d' => ?_) d
    simp [open_count, initial_state]
  · intro s driver vehicle st lat lon odo now hok
    unfold record_duty_status_change at hok ⊢
    cases hf : s.entries.find? (is_open_for driver) with
    | none =>
      rw [hf] at hok
      unfold create_new_entry at hok ⊢
      cases hv : validate_entry_location lat lon with
      | some err =>
        rw [hv] at hok
        exact Option.noConfusion hok
      | none =>
        refine ⟨⟨s.next_id, driver, vehicle, st, "", lat, lon, now, none, odo⟩,
          ?_, rfl, rfl, rfl, rfl, fun ce hce => Option.noConfusion hce⟩
        rw [close_first_open_of_find_none driver now s.entries hf]
    | some ce =>
      rw [hf] at hok
      dsimp only at hok
      cases hv₀ : validate_entry_location ce.latitude ce.longitude with
      | some err =>
        rw [hv₀] at hok
        exact Option.noConfusion hok
      | none =>
        rw [hv₀] at hok
        dsimp only at hok
        unfold create_new_entry at hok
        dsimp only
        rw [hv₀]
        unfold create_new_entry
        cases hv : validate_entry_location lat lon with
        | some err =>
          rw [hv] at hok
          exact Option.noConfusion hok
        | none =>
          refine ⟨⟨s.next_id, driver, vehicle, st, ce.duty_status, lat, lon, now,
            none, odo⟩, rfl, rfl, rfl, rfl, rfl, fun ce' hce' => ?_⟩
          injection hce' with hce'
          subst hce'
          exact List.mem_cons_of_mem _
            (closed_entry_mem_close_first_open driver now s.entries ce hf)

/-- C2, witness: Two consecutive status changes for driver 1 from the
empty state leave a single open entry; the first successful call prepends an
open `D` entry. -/
theorem duty_status_open_interval_invariant_witness :
    open_count 1 (apply_ops [⟨1, 1, "D", none, none, 500, 100⟩,
      ⟨1, 1, "ON", none, none, 520, 200⟩] initial_state) ≤ 1 ∧
    (record_duty_status_change initial_state 1 1 "D" none none
      500 100).2.entries.length = 1 := by
  constructor
  · exact duty_status_open_interval_invariant.1
      [⟨1, 1, "D", none, none, 500, 100⟩, ⟨1, 1, "ON", none, none, 520, 200⟩] 1
  · obtain ⟨e, h₁, -, -, -, -, -⟩ :=
      duty_status_open_interval_invariant.2 initial_state 1 1 "D" none none 500 100 rfl
    rw [h₁]
    rfl

/-- C4, counterexample: Against a state holding one open entry for driver
1, a duty-status change carrying latitude 100 (out of range) raises the
latitude validation error — but only after the open entry has already been
closed: the resulting table holds exactly the old entry with
`end_time = some 200`, contradicting the claim that the previously open
entry remains open with `end_time = None`. -/
theorem coordinate_validation_counterexample :
    (record_duty_status_change
        ⟨[⟨0, 1, 1, "D", "", some 10, some 20, 0, none, 100⟩], [],
          [(1, ⟨"D", some 0⟩)], [(1, 0)], 1⟩
        1 1 "ON" (some 100) (some 0) 150 200).1
      = some "Latitude must be between -90 and 90 degrees" ∧
    (record_duty_status_change
        ⟨[⟨0, 1, 1, "D", "", some 10, some 20, 0, none, 100⟩], [],
          [(1, ⟨"D", some 0⟩)], [(1, 0)], 1⟩
        1 1 "ON" (some 100) (some 0) 150 200).2.entries
      = [⟨0, 1, 1, "D", "", some 10, some 20, 0, some 200, 100⟩] := by
  refine ⟨?_, ?_⟩ <;>
    norm_num [record_duty_status_change, create_new_entry,
      validate_entry_location, close_first_open, is_open_for]

/-- C4, amended: A duty-status change carrying both coordinates with
either one out of range fails with a validation error; no new entry is
created (the entry count is unchanged) and the driver's cached status fields,
document summaries and location samples are untouched — but the write is not
rejected atomically: when an open entry existed (and its own stored
coordinates pass validation) it has already been closed when the error is
raised. -/
theorem coordinate_validation_spec (s : ELDState) (driver vehicle : ℕ)
    (st : String) (la lo : ℚ) (odo now : ℕ)
    (hbad : ¬(-90 ≤ la ∧ la ≤ 90) ∨ ¬(-180 ≤ lo ∧ lo ≤ 180)) :
    ((record_duty_status_change s driver vehicle st (some la) (some lo) odo now).1).isSome
      = true ∧
    (record_duty_status_change s driver vehicle st (some la) (some lo) odo
        now).2.entries.length = s.entries.length ∧
    (record_duty_status_change s driver vehicle st (some la) (some lo) odo
        now).2.caches = s.caches ∧
    (record_duty_status_change s driver vehicle st (some la) (some lo) odo
        now).2.summaries = s.summaries ∧
    (record_duty_status_change s driver vehicle st (some la) (some lo) odo
        now).2.samples = s.samples := by
  have hval : ∃ msg, validate_entry_location (some la) (some lo) = some msg := by
    unfold validate_entry_location
    dsimp only
    rcases hbad with h | h
    · exact ⟨_, by rw [if_pos h]⟩
    · by_cases h₁ : ¬(-90 ≤ la ∧ la ≤ 90)
      · exact ⟨_, by rw [if_pos h₁]⟩
      · exact ⟨_, by rw [if_neg h₁, if_pos h]⟩
  obtain ⟨msg, hmsg⟩ := hval
  unfold record_duty_status_change
  cases hf : s.entries.find? (is_open_for driver) with
  | none =>
    unfold create_new_entry
    rw [hmsg]
    exact ⟨rfl, rfl, rfl, rfl, rfl⟩
  | some ce =>
    dsimp only
    cases hv₀ : validate_entry_location ce.latitude ce.longitude with
    | some err => exact ⟨rfl, rfl, rfl, rfl, rfl⟩
    | none =>
      dsimp only
      unfold create_new_entry
      rw [hmsg]
      exact ⟨rfl, close_first_open_length driver now s.entries, rfl, rfl, rfl⟩

/-- C4, witness: From the empty state, a change with latitude 100 fails
and creates nothing. -/
theorem coordinate_validation_spec_witness :
    ((record_duty_status_change initial_state 1 1 "ON" (some 100) (some 0)
        150 200).1).isSome = true ∧
    (record_duty_status_change initial_state 1 1 "ON" (some 100) (some 0)
        150 200).2.entries.length = 0 := by
  have h := coordinate_validation_spec initial_state 1 1 "ON" 100 0 150 200
    (Or.inl (by norm_num))
  exact ⟨h.1, h.2.1⟩

/-! Helper lemmas for the interval-sample sequence numbers. -/

theorem foldl_pick_later_ne_none (l : List LocationTrackingEntry)
    (acc : Option LocationTrackingEntry) :
    l.foldl pick_later acc = none → acc = none ∧ l = [] := by
  induction l generalizing acc with
  | nil => exact fun h => ⟨h, rfl⟩
  | cons y t ih =>
    intro h
    rw [List.foldl_cons] at h
    have hstep := (ih _ h).1
    exfalso
    cases acc with
    | none => exact Option.noConfusion hstep
    | some a =>
      unfold pick_later at hstep
      dsimp only at hstep
      split_ifs at hstep

theorem foldl_pick_later_max (l : List LocationTrackingEntry)
    (acc : Option LocationTrackingEntry) (li : LocationTrackingEntry)
    (h : l.foldl pick_later acc = some li) :
    (∀ x ∈ l, x.interval_sequence ≤ li.interval_sequence) ∧
    (∀ x, acc = some x → x.interval_sequence ≤ li.interval_sequence) := by
  induction l generalizing acc with
  | nil =>
    refine ⟨fun x hx => absurd hx (List.not_mem_nil x), fun x hx => ?_⟩
    rw [List.foldl_nil] at h
    rw [hx] at h
    injection h with h
    subst h
    exact le_rfl
  | cons y t ih =>
    rw [List.foldl_cons] at h
    obtain ⟨h₁, h₂⟩ := ih _ h
    cases acc with
    | none =>
      have hy : y.interval_sequence ≤ li.interval_sequence := h₂ y rfl
      refine ⟨fun x hx => ?_, fun x hx => Option.noConfusion hx⟩
      rcases List.mem_cons.mp hx with rfl | hxt
      · exact hy
      · exact h₁ x hxt
    | some a =>
      by_cases hcmp : a.interval_sequence < y.interval_sequence
      · have hy : y.interval_sequence ≤ li.interval_sequence := by
          refine h₂ y ?_
          unfold pick_later
          dsimp only
          rw [if_pos hcmp]
        refine ⟨fun x hx => ?_, fun x hx => ?_⟩
        · rcases List.mem_cons.mp hx with rfl | hxt
          · exact hy
          · exact h₁ x hxt
        · injection hx with hx
          subst hx
          exact (le_of_lt hcmp).trans hy
      · have ha : a.interval_sequence ≤ li.interval_sequence := by
          refine h₂ a ?_
          unfold pick_later
          dsimp only
          rw [if_neg hcmp]
        refine ⟨fun x hx => ?_, fun x hx => ?_⟩
        · rcases List.mem_cons.mp hx with rfl | hxt
          · exact (le_of_not_lt hcmp).trans ha
          · exact h₁ x hxt
        · injection hx with hx
          subst hx
          exact ha

theorem last_sample_for_is_max (entry_id : ℕ) (samples : List LocationTrackingEntry)
    (x : LocationTrackingEntry) (hx : x ∈ samples)
    (hid : x.duty_status_entry = entry_id) :
    ∃ li, last_sample_for entry_id samples = some li ∧
      x.interval_sequence ≤ li.interval_sequence := by
  have hxf : x ∈ samples.filter (fun y => y.duty_status_entry == entry_id) :=
    List.mem_filter.mpr ⟨hx, by simp [hid]⟩
  cases hres : last_sample_for entry_id samples with
  | none =>
    exfalso
    unfold last_sample_for at hres
    obtain ⟨-, hnil⟩ := foldl_pick_later_ne_none _ _ hres
    rw [hnil] at hxf
    exact List.not_mem_nil x hxf
  | some li =>
    refine ⟨li, rfl, ?_⟩
    unfold last_sample_for at hres
    exact (foldl_pick_later_max _ _ li hres).1 x hxf

/-- C9: With no open `Driving` entry for the driver,
`record_location_interval` returns `None` and leaves the state untouched;
with one, it creates exactly one sample attached to that entry whose sequence
number is the maximal existing sequence for the entry plus one (1 when the
entry has no samples), strictly above every existing sequence. -/
theorem record_location_interval_spec (s : ELDState) (driver vehicle : ℕ)
    (lat lon : ℚ) (odo now : ℕ) :
    (s.entries.find? (is_open_driving_for driver) = none →
      record_location_interval s driver vehicle lat lon odo now = (none, s)) ∧
    (∀ de, s.entries.find? (is_open_driving_for driver) = some de →
      ∃ smp, record_location_interval s driver vehicle lat lon odo now =
          (some smp, { s with samples := smp :: s.samples }) ∧
        smp.duty_status_entry = de.id ∧
        smp.interval_sequence =
          (match last_sample_for de.id s.samples with
           | some li => li.interval_sequence + 1
           | none => 1) ∧
        (∀ x ∈ s.samples, x.duty_status_entry = de.id →
          x.interval_sequence < smp.interval_sequence)) := by
  constructor
  · intro h
    unfold record_location_interval
    rw [h]
  · intro de hde
    unfold record_location_interval
    rw [hde]
    refine ⟨_, rfl, rfl, rfl, ?_⟩
    intro x hx hid
    obtain ⟨li, hli, hle⟩ := last_sample_for_is_max de.id s.samples x hx hid
    show x.interval_sequence <
      (match last_sample_for de.id s.samples with
       | some li => li.interval_sequence + 1
       | none => 1)
    rw [hli]
    exact Nat.lt_succ_of_le hle

/-- C9, witness: From the empty state a sample is dropped with a `None`
result; with an open driving entry and no prior samples the created sample
has sequence number 1. -/
theorem record_location_interval_spec_witness :
    record_location_interval initial_state 1 1 10 20 500 100
      = (none, initial_state) ∧
    ((record_location_interval
        ⟨[⟨0, 1, 1, "D", "", none, none, 0, none, 100⟩], [], [], [], 1⟩
        1 1 10 20 150 60).1).isSome = true ∧
    (record_location_interval
        ⟨[⟨0, 1, 1, "D", "", none, none, 0, none, 100⟩], [], [], [], 1⟩
        1 1 10 20 150 60).2.samples.map
      (fun x => x.interval_sequence) = [1] := by
  refine ⟨(record_location_interval_spec initial_state 1 1 10 20 500 100).1 rfl,
    ?_, ?_⟩ <;>
  · obtain ⟨smp, heq, -, hseq, -⟩ :=
      (record_location_interval_spec
        ⟨[⟨0, 1, 1, "D", "", none, none, 0, none, 100⟩], [], [], [], 1⟩
        1 1 10 20 150 60).2
        ⟨0, 1, 1, "D", "", none, none, 0, none, 100⟩ rfl
    rw [heq]
    simp [hseq]
    try rfl


/-! Helper lemmas for the idempotence of daily-log generation. -/

theorem find_isSome_cons (p : EldDailyLog → Bool) (x : EldDailyLog)
    (l : List EldDailyLog) (h : (l.find? p).isSome = true) :
    ((x :: l).find? p).isSome = true := by
  cases hx : p x with
  | false => rw [List.find?_cons_of_neg _ (by simp [hx])]; exact h
  | true => rw [List.find?_cons_of_pos _ hx]; rfl

theorem generate_daily_log_has (trip : Trip) (d : ℕ) (stops : List Stop)
    (logs : List EldDailyLog) :
    has_log trip d (generate_daily_log trip d stops logs) = true := by
  unfold generate_daily_log
  cases hf : logs.find? (log_key_matches trip.id trip.driver trip.vehicle d) with
  | some l => unfold has_log; rw [hf]; rfl
  | none =>
    unfold has_log
    rw [List.find?_cons_of_pos]
    · rfl
    · unfold log_key_matches check_violations calculate_daily_totals
      dsimp only
      split_ifs <;> simp

theorem generate_daily_log_preserves (trip : Trip) (d d' : ℕ) (stops : List Stop)
    (logs : List EldDailyLog) (h : has_log trip d' logs = true) :
    has_log trip d' (generate_daily_log trip d stops logs) = true := by
  unfold generate_daily_log
  cases hf : logs.find? (log_key_matches trip.id trip.driver trip.vehicle d) with
  | some l => exact h
  | none => exact find_isSome_cons _ _ _ h

theorem generate_daily_log_skip (trip : Trip) (d : ℕ) (stops : List Stop)
    (logs : List EldDailyLog) (h : has_log trip d logs = true) :
    generate_daily_log trip d stops logs = logs := by
  unfold has_log at h
  unfold generate_daily_log
  cases hf : logs.find? (log_key_matches trip.id trip.driver trip.vehicle d) with
  | some l => rfl
  | none => rw [hf] at h; exact absurd h (by simp)

theorem foldl_step_preserves (trip : Trip) (dates : List ℕ) (ls : List EldDailyLog)
    (d' : ℕ) (h : has_log trip d' ls = true) :
    has_log trip d' (dates.foldl (generate_daily_log_step trip) ls) = true := by
  induction dates generalizing ls with
  | nil => exact h
  | cons d rest ih =>
    rw [List.foldl_cons]
    exact ih _ (generate_daily_log_preserves trip d d' _ ls h)

theorem foldl_step_all_present (trip : Trip) (dates : List ℕ)
    (ls : List EldDailyLog) :
    ∀ d ∈ dates, has_log trip d (dates.foldl (generate_daily_log_step trip) ls)
      = true := by
  induction dates generalizing ls with
  | nil => intro d hd; exact absurd hd (List.not_mem_nil d)
  | cons d₀ rest ih =>
    intro d hd
    rw [List.foldl_cons]
    rcases List.mem_cons.mp hd with rfl | hdr
    · exact foldl_step_preserves trip rest _ d
        (generate_daily_log_has trip d _ ls)
    · exact ih _ d hdr

theorem foldl_step_idem (trip : Trip) (dates : List ℕ) (ls : List EldDailyLog)
    (h : ∀ d ∈ dates, has_log trip d ls = true) :
    dates.foldl (generate_daily_log_step trip) ls = ls := by
  induction dates with
  | nil => rfl
  | cons d rest ih =>
    rw [List.foldl_cons]
    rw [show generate_daily_log_step trip ls d = ls from
      generate_daily_log_skip trip d _ ls (h d (List.mem_cons_self d rest))]
    exact ih fun d' hd' => h d' (List.mem_cons_of_mem d hd')

/-- C5: `generate_logs_for_trip` is idempotent on the stored state:
running it a second time on the same trip finds every (trip, driver,
vehicle, date) daily log already present, skips entry synthesis, totals and
violation checking for all of them, and returns the state unchanged — no
daily-log row or duty entry is duplicated. -/
theorem generate_logs_for_trip_idempotent (trip : Trip)
    (logs : List EldDailyLog) :
    generate_logs_for_trip trip (generate_logs_for_trip trip logs).2 =
      generate_logs_for_trip trip logs := by
  unfold generate_logs_for_trip
  by_cases hs : trip.stops = []
  · rw [if_pos hs, if_pos hs]
  · rw [if_neg hs, if_neg hs]
    refine congrArg (Prod.mk none) ?_
    exact foldl_step_idem trip (group_stop_dates trip.stops) _
      (foldl_step_all_present trip (group_stop_dates trip.stops) logs)

end TripPlanner
